import Mathlib

/-!
Verification of the dns-sync reconciliation core.

The Go sources are shallowly embedded: the database table is a list of rows,
the remote authority fetch is an explicit input, and each SQL statement of
mysql.go becomes a pure list transformation.  Machine integers (int64) are
modelled as Int, Go pointers to strings as Option String, and time.Time
values as Int timestamps.  Write failures of individual SQL statements are
injected through Boolean oracles keyed by the remote record identifier, so
that partial-failure behaviour of the pass can be stated.
-/

namespace DnsSync

/-- Remote DNS record as returned by the Aliyun API, struct DNSRecord in
internal/models/models.go. -/
structure DNSRecord where
  createTimestamp : Int
  domainName : String
  lbaStatus : Bool
  line : String
  locked : Bool
  rr : String
  recordId : String
  status : String
  ttl : Int
  type : String
  updateTimestamp : Int
  value : String
  weight : Int
deriving DecidableEq

/-- Persisted mirror row, struct AssetSubDomain in internal/models/models.go
together with the aliyun_record_id column used by internal/database/mysql.go
(nullable back-reference to the remote stable identifier). -/
structure AssetSubDomain where
  id : String
  subDomain : String
  type : String
  createTime : Int
  updateBy : Option String
  createBy : Option String
  updateTime : Int
  sysOrgCode : Option String
  dnsRecord : Option String
  nameServer : Option String
  assetLabel : String
  assetManager : Option String
  assetDepartment : Option String
  level : Option String
  domainID : String
  source : String
  projectID : String
  aliyunRecordID : Option String
deriving DecidableEq

/-- Conversion of a remote record into a mirror row,
DNSRecord.ConvertToAssetSubDomain in models.go.  Fields the Go code does not
assign keep their Go zero values: empty string for strings and none for
pointer fields; in particular dnsRecord and aliyunRecordID are left at none. -/
def ConvertToAssetSubDomain (d : DNSRecord) (domainID projectID : String)
    (now : Int) : AssetSubDomain :=
  { id := ""
    subDomain :=
      if d.rr ≠ "" ∧ d.rr ≠ "@" then d.rr ++ "." ++ d.domainName
      else d.domainName
    type := d.type
    createTime := now
    updateBy := none
    createBy := none
    updateTime := now
    sysOrgCode := none
    dnsRecord := none
    nameServer := none
    assetLabel := ""
    assetManager := none
    assetDepartment := none
    level := none
    domainID := domainID
    source := "Aliyun-DNS-Sync"
    projectID := projectID
    aliyunRecordID := none }

/-- Name composition helper getFullDomain of the incremental sync main file. -/
def getFullDomain (record : DNSRecord) : String :=
  if record.rr = "" ∨ record.rr = "@" then record.domainName
  else record.rr ++ "." ++ record.domainName

/-- Change detection, database.NeedUpdate in mysql.go: the composition of the
remote full name is inlined there exactly as in the Go function. -/
def NeedUpdate (aliyunRecord : DNSRecord) (localRecord : AssetSubDomain) : Bool :=
  let aliyunSubDomain :=
    if aliyunRecord.rr ≠ "" ∧ aliyunRecord.rr ≠ "@" then
      aliyunRecord.rr ++ "." ++ aliyunRecord.domainName
    else aliyunRecord.domainName
  if localRecord.subDomain ≠ aliyunSubDomain then true
  else if localRecord.type ≠ aliyunRecord.type then true
  else
    match localRecord.dnsRecord with
    | none => true
    | some v => if v ≠ aliyunRecord.value then true else false

/-- Map lookup with Go map access semantics: the value bound to the key, if
any. -/
def alookup {α : Type} (m : List (String × α)) (k : String) : Option α :=
  match m with
  | [] => none
  | (k0, v) :: rest => if k = k0 then some v else alookup rest k

/-- Map insertion with Go map assignment semantics: replace the binding when
the key is present, append it otherwise. -/
def upsert {α : Type} (m : List (String × α)) (k : String) (v : α) :
    List (String × α) :=
  match m with
  | [] => [(k, v)]
  | (k0, v0) :: rest =>
    if k0 = k then (k, v) :: rest else (k0, v0) :: upsert rest k v

/-- Local snapshot reader, MySQLClient.GetLocalRecords in mysql.go: selects
rows whose domain_id matches, whose source is the provenance tag and whose
aliyun_record_id is not null, and keys them by that identifier. -/
def GetLocalRecords (rows : List AssetSubDomain) (domainID : String) :
    List (String × AssetSubDomain) :=
  rows.foldl
    (fun m row =>
      if row.domainID = domainID ∧ row.source = "Aliyun-DNS-Sync" then
        match row.aliyunRecordID with
        | some rid => upsert m rid row
        | none => m
      else m) []

/-- Row insertion, MySQLClient.InsertRecord in mysql.go: the row is stored
with a freshly generated primary key, all other fields as given. -/
def InsertRecord (rows : List AssetSubDomain) (record : AssetSubDomain)
    (newId : String) : List AssetSubDomain :=
  rows ++ [{ record with id := newId }]

/-- Row update, MySQLClient.UpdateRecord in mysql.go: recomposes the full
name exactly as the Go function does, then overwrites sub_domain, type,
dns_record and update_time of every row whose primary key matches. -/
def UpdateRecord (rows : List AssetSubDomain) (localID : String)
    (aliyunRecord : DNSRecord) (now : Int) : List AssetSubDomain :=
  let subDomain :=
    if aliyunRecord.rr ≠ "" ∧ aliyunRecord.rr ≠ "@" then
      aliyunRecord.rr ++ "." ++ aliyunRecord.domainName
    else aliyunRecord.domainName
  rows.map fun row =>
    if row.id = localID then
      { row with
          subDomain := subDomain
          type := aliyunRecord.type
          dnsRecord := some aliyunRecord.value
          updateTime := now }
    else row

/-- Row deletion, MySQLClient.DeleteRecord in mysql.go: removes every row
whose primary key matches. -/
def DeleteRecord (rows : List AssetSubDomain) (localID : String) :
    List AssetSubDomain :=
  rows.filter fun row => row.id != localID

/-- Filter applied by incrementalSyncDomain step 2: keep A and CNAME records
whose status is ENABLE. -/
def isValidRecord (r : DNSRecord) : Bool :=
  (r.type == "A" || r.type == "CNAME") && r.status == "ENABLE"

/-- Remote snapshot built by incrementalSyncDomain steps 2 and 4: filter the
fetched records, then index them by RecordId with Go map semantics. -/
def buildRemoteSnapshot (dnsRecords : List DNSRecord) :
    List (String × DNSRecord) :=
  (dnsRecords.filter isValidRecord).foldl (fun m r => upsert m r.recordId r) []

/-- Mutable state threaded through the reconciliation loops: counts, the
table contents and the primary key generation counter. -/
structure PassState where
  added : Nat
  updated : Nat
  deleted : Nat
  db : List AssetSubDomain
  nextId : Nat
deriving DecidableEq

/-- Body of the first loop of incrementalSyncDomain (adds and updates).  The
oracles insertOk and updateOk tell whether the SQL statement for a given
remote identifier succeeds; on failure the Go code logs, skips the count and
leaves the table unchanged.  A failed insert still consumes a generated
primary key, since GetNextID runs before the Exec call. -/
def step1 (domainID projectID : String) (now : Int) (genId : Nat → String)
    (localRecords : List (String × AssetSubDomain))
    (insertOk updateOk : String → Bool)
    (st : PassState) (p : String × DNSRecord) : PassState :=
  match alookup localRecords p.1 with
  | some localRecord =>
    if NeedUpdate p.2 localRecord then
      if updateOk p.1 then
        { st with
            updated := st.updated + 1
            db := UpdateRecord st.db localRecord.id p.2 now }
      else st
    else st
  | none =>
    let newRecord := ConvertToAssetSubDomain p.2 domainID projectID now
    if insertOk p.1 then
      { st with
          added := st.added + 1
          db := InsertRecord st.db newRecord (genId st.nextId)
          nextId := st.nextId + 1 }
    else { st with nextId := st.nextId + 1 }

/-- Body of the second loop of incrementalSyncDomain (deletions of rows whose
remote identifier disappeared from the snapshot). -/
def step2 (aliyunRecords : List (String × DNSRecord))
    (deleteOk : String → Bool)
    (st : PassState) (p : String × AssetSubDomain) : PassState :=
  match alookup aliyunRecords p.1 with
  | some _ => st
  | none =>
    if deleteOk p.1 then
      { st with deleted := st.deleted + 1, db := DeleteRecord st.db p.2.id }
    else st

/-- Result of one zone pass: the three counts, the zone level error and the
resulting table state. -/
structure SyncOutcome where
  added : Nat
  updated : Nat
  deleted : Nat
  err : Option String
  db : List AssetSubDomain
  nextId : Nat
deriving DecidableEq

/-- One zone pass, incrementalSyncDomain of the incremental sync main file.
The remote fetch outcome and the local read outcome are explicit inputs; a
fetch error or a read error returns immediately with the error and an
untouched table, otherwise the snapshot diff is applied through the two
loops. -/
def incrementalSyncDomain (fetch : Except String (List DNSRecord))
    (readErr : Option String) (domainID projectID : String) (now : Int)
    (genId : Nat → String) (insertOk updateOk deleteOk : String → Bool)
    (db : List AssetSubDomain) (nextId : Nat) : SyncOutcome :=
  match fetch with
  | .error e =>
    { added := 0, updated := 0, deleted := 0
      err := some ("failed to get DNS records: " ++ e), db := db, nextId := nextId }
  | .ok dnsRecords =>
    match readErr with
    | some e =>
      { added := 0, updated := 0, deleted := 0
        err := some ("failed to get local records: " ++ e), db := db, nextId := nextId }
    | none =>
      let aliyunRecords := buildRemoteSnapshot dnsRecords
      let localRecords := GetLocalRecords db domainID
      let st0 : PassState := ⟨0, 0, 0, db, nextId⟩
      let st1 := aliyunRecords.foldl
        (step1 domainID projectID now genId localRecords insertOk updateOk) st0
      let st2 := localRecords.foldl (step2 aliyunRecords deleteOk) st1
      { added := st2.added, updated := st2.updated, deleted := st2.deleted
        err := none, db := st2.db, nextId := st2.nextId }

/-- One page of the DescribeDomainRecords response, the fields of
DomainRecordsResponse used by the pagination loop of
DNSClient.GetDomainRecords in the aliyun client file. -/
structure PageResponse where
  records : List DNSRecord
  totalCount : Int
deriving DecidableEq

/-- Requested page size of GetDomainRecords, pageSize := int64(100). -/
def pageSize : Int := 100

/-- Pagination loop of DNSClient.GetDomainRecords.  The authority is a
function from page number to response; the result carries the accumulated
records and the trace of page numbers that were requested.  The extra fuel
argument is a model artifact: none means the loop did not finish within the
given number of iterations.  Division truncates toward zero as in Go. -/
def GetDomainRecordsLoop (pages : Nat → PageResponse) :
    Nat → Nat → List DNSRecord → List Nat → Option (List DNSRecord × List Nat)
  | 0, _, _, _ => none
  | fuel + 1, pageNumber, allRecords, requested =>
    let response := pages pageNumber
    let allRecords := allRecords ++ response.records
    let requested := requested ++ [pageNumber]
    if (allRecords.length : Int) ≥ response.totalCount then
      some (allRecords, requested)
    else if (pageNumber : Int) + 1 > response.totalCount.tdiv pageSize + 1 then
      some (allRecords, requested)
    else GetDomainRecordsLoop pages fuel (pageNumber + 1) allRecords requested

/-- Entry point of the pagination loop: page numbering starts at 1 with an
empty accumulator, as in GetDomainRecords. -/
def GetDomainRecords (pages : Nat → PageResponse) (fuel : Nat) :
    Option (List DNSRecord × List Nat) :=
  GetDomainRecordsLoop pages fuel 1 [] []

/-- Boolean selector for the create path of a pass: remote identifiers
absent from the local snapshot whose insert statement succeeds. -/
def createCounted (localRecords : List (String × AssetSubDomain))
    (insertOk : String → Bool) (p : String × DNSRecord) : Bool :=
  (alookup localRecords p.1).isNone && insertOk p.1

/-- Boolean selector for the update path of a pass: remote identifiers
present in the local snapshot with drifted fields whose update statement
succeeds. -/
def updateCounted (localRecords : List (String × AssetSubDomain))
    (updateOk : String → Bool) (p : String × DNSRecord) : Bool :=
  match alookup localRecords p.1 with
  | some localRecord => NeedUpdate p.2 localRecord && updateOk p.1
  | none => false

/-- Boolean selector for the delete path of a pass: local snapshot entries
absent from the remote snapshot whose delete statement succeeds. -/
def deleteCounted (aliyunRecords : List (String × DNSRecord))
    (deleteOk : String → Bool) (p : String × AssetSubDomain) : Bool :=
  (alookup aliyunRecords p.1).isNone && deleteOk p.1

/-- Rows that are foreign to the reconciliation of a zone: rows missing the
provenance tag or belonging to a different zone identifier. -/
def foreignRow (domainID : String) (row : AssetSubDomain) : Bool :=
  !(row.source == "Aliyun-DNS-Sync" && row.domainID == domainID)

/-- Concrete remote record used by the closed evaluation theorems. -/
def exRecord : DNSRecord :=
  { createTimestamp := 0, domainName := "example.com", lbaStatus := false
    line := "default", locked := false, rr := "www", recordId := "id1"
    status := "ENABLE", ttl := 600, type := "A", updateTimestamp := 0
    value := "1.1.1.1", weight := 0 }

/-- Identifier generator used by the closed evaluation theorems. -/
def exGenId (n : Nat) : String := toString n

/-- First pass of the evaluation scenario: one enabled A record upstream,
empty local table, every write succeeds. -/
def exRun1 : SyncOutcome :=
  incrementalSyncDomain (.ok [exRecord]) none "dom1" "proj1" 0 exGenId
    (fun _ => true) (fun _ => true) (fun _ => true) [] 0

/-- Second pass of the evaluation scenario: unchanged remote snapshot, local
table as left by the first pass, every write succeeds. -/
def exRun2 : SyncOutcome :=
  incrementalSyncDomain (.ok [exRecord]) none "dom1" "proj1" 1 exGenId
    (fun _ => true) (fun _ => true) (fun _ => true) exRun1.db exRun1.nextId

/-- Page responses for the pagination counterexample: the authority reports
a total of 250 but holds almost nothing; every page returns fewer records
than the requested page size of 100. -/
def exPages (n : Nat) : PageResponse :=
  if n = 1 then { records := List.replicate 3 exRecord, totalCount := 250 }
  else if n = 2 then { records := List.replicate 2 exRecord, totalCount := 250 }
  else { records := [], totalCount := 250 }

/-- Concrete foreign row used by the isolation witness: different source
and different zone than the reconciled one. -/
def exForeignRow : AssetSubDomain :=
  { id := "900", subDomain := "manual.example.org", type := "A"
    createTime := 0, updateBy := none, createBy := none, updateTime := 0
    sysOrgCode := none, dnsRecord := some "9.9.9.9", nameServer := none
    assetLabel := "", assetManager := none, assetDepartment := none
    level := none, domainID := "otherzone", source := "Manual"
    projectID := "proj9", aliyunRecordID := some "id9" }

/-- The composition inlined in NeedUpdate, UpdateRecord and
ConvertToAssetSubDomain agrees with getFullDomain. -/
theorem compose_eq_getFullDomain (r : DNSRecord) :
    (if r.rr ≠ "" ∧ r.rr ≠ "@" then r.rr ++ "." ++ r.domainName
     else r.domainName) = getFullDomain r := by
  unfold getFullDomain
  rcases eq_or_ne r.rr "" with h1 | h1
  · simp [h1]
  · rcases eq_or_ne r.rr "@" with h2 | h2
    · simp [h1, h2]
    · simp [h1, h2]

/-- Helper characterization of the change detection predicate. -/
theorem needUpdate_true_iff (r : DNSRecord) (l : AssetSubDomain) :
    NeedUpdate r l = true ↔
      (l.subDomain ≠ getFullDomain r ∨ l.type ≠ r.type
        ∨ l.dnsRecord ≠ some r.value) := by
  unfold NeedUpdate
  rw [compose_eq_getFullDomain]
  by_cases hs : l.subDomain = getFullDomain r <;>
    by_cases ht : l.type = r.type <;>
      rcases hl : l.dnsRecord with _ | v <;>
        simp [hs, ht, hl]

/-- Claim C4.  Change detection: NeedUpdate holds exactly when the composed
fully qualified name, the record kind or the value differs between the
remote record and the local row, a null stored value counting as a
difference. -/
theorem claim_C4_change_detection (r : DNSRecord) (l : AssetSubDomain) :
    NeedUpdate r l = true ↔
      (l.subDomain ≠ getFullDomain r ∨ l.type ≠ r.type
        ∨ l.dnsRecord ≠ some r.value) :=
  needUpdate_true_iff r l

/-- Claim C8.  Name composition: getFullDomain returns the zone when the
label is empty or the apex marker and label dot zone otherwise, and the
record conversion, the change detection and the record update all compute
this same composition. -/
theorem claim_C8_name_composition (r : DNSRecord) (l : AssetSubDomain)
    (rows : List AssetSubDomain) (lid : String) (now : Int)
    (d p : String) (n : Int) :
    getFullDomain r = (if r.rr = "" ∨ r.rr = "@" then r.domainName
      else r.rr ++ "." ++ r.domainName)
    ∧ (ConvertToAssetSubDomain r d p n).subDomain = getFullDomain r
    ∧ (NeedUpdate r l = false ↔
        (l.subDomain = getFullDomain r ∧ l.type = r.type
          ∧ l.dnsRecord = some r.value))
    ∧ UpdateRecord rows lid r now = rows.map (fun row =>
        if row.id = lid then
          { row with
              subDomain := getFullDomain r
              type := r.type
              dnsRecord := some r.value
              updateTime := now }
        else row) := by
  refine ⟨rfl, ?_, ?_, ?_⟩
  · show (if r.rr ≠ "" ∧ r.rr ≠ "@" then r.rr ++ "." ++ r.domainName
      else r.domainName) = getFullDomain r
    exact compose_eq_getFullDomain r
  · have h := needUpdate_true_iff r l
    constructor
    · intro hfalse
      by_contra hcon
      have : NeedUpdate r l = true := by
        rw [h]
        tauto
      rw [hfalse] at this
      cases this
    · intro hcon
      cases hne : NeedUpdate r l
      · rfl
      · rw [h] at hne
        tauto
  · unfold UpdateRecord
    rw [compose_eq_getFullDomain]

/-- Claim C5.  Fail-closed zone pass: a remote fetch error or a local read
error ends the pass with the zone marked failed, zero counts and the table
untouched. -/
theorem claim_C5_fail_closed (e e2 : String) (recs : List DNSRecord)
    (readErr : Option String) (domainID projectID : String) (now : Int)
    (genId : Nat → String) (iOk uOk dOk : String → Bool)
    (db : List AssetSubDomain) (nextId : Nat) :
    (incrementalSyncDomain (.error e) readErr domainID projectID now genId
        iOk uOk dOk db nextId
      = { added := 0, updated := 0, deleted := 0
          err := some ("failed to get DNS records: " ++ e)
          db := db, nextId := nextId })
    ∧ (incrementalSyncDomain (.ok recs) (some e2) domainID projectID now genId
        iOk uOk dOk db nextId
      = { added := 0, updated := 0, deleted := 0
          err := some ("failed to get local records: " ++ e2)
          db := db, nextId := nextId }) :=
  ⟨rfl, rfl⟩

/-- Claim C1 failing input.  One enabled remote A record against an empty
mirror, every write succeeding: the pass creates one row, but that row
back-references nothing (its aliyun_record_id is null), so no local row
back-references id1 and the convergence property fails. -/
theorem claim_C1_convergence_fails_on_create :
    exRun1.err = none ∧ exRun1.added = 1 ∧ exRun1.db.length = 1
    ∧ exRun1.db.countP (fun row => row.aliyunRecordID == some "id1") = 0
    ∧ exRun1.db.countP (fun row => row.aliyunRecordID == none) = 1 := by
  decide

/-- Claim C2 failing input.  Second pass over the mirror left by the first
pass, identical remote snapshot, no write failure: the created row is
invisible to the local snapshot reader, so the second pass performs one
create again instead of zero. -/
theorem claim_C2_idempotence_fails :
    exRun2.added = 1 ∧ exRun2.updated = 0 ∧ exRun2.deleted = 0
    ∧ exRun2.db.length = 2 := by
  decide

/-- Claim C3.  Rows inserted by the create path carry a null back-reference
and a null value, because the conversion sets neither field; consequently
inserting such a row never changes what the local snapshot reader returns,
so a row created by a previous pass is invisible to later passes. -/
theorem claim_C3_create_rows_invisible (d : DNSRecord)
    (domainID projectID : String) (now : Int)
    (rows : List AssetSubDomain) (zone rid : String) :
    (ConvertToAssetSubDomain d domainID projectID now).aliyunRecordID = none
    ∧ (ConvertToAssetSubDomain d domainID projectID now).dnsRecord = none
    ∧ GetLocalRecords
        (InsertRecord rows (ConvertToAssetSubDomain d domainID projectID now) rid)
        zone
      = GetLocalRecords rows zone := by
  refine ⟨rfl, rfl, ?_⟩
  unfold GetLocalRecords InsertRecord
  rw [List.foldl_append]
  simp only [List.foldl_cons, List.foldl_nil]
  split
  · rfl
  · rfl

/-- Lookup after a Go style map assignment. -/
theorem alookup_upsert {α : Type} (m : List (String × α)) (k k0 : String)
    (v : α) :
    alookup (upsert m k0 v) k = if k = k0 then some v else alookup m k := by
  induction m with
  | nil =>
    by_cases h : k = k0 <;> simp [upsert, alookup, h]
  | cons p rest ih =>
    obtain ⟨k1, v1⟩ := p
    by_cases h1 : k1 = k0
    · subst h1
      by_cases h : k = k1 <;> simp [upsert, alookup, h]
    · have hup : upsert ((k1, v1) :: rest) k0 v = (k1, v1) :: upsert rest k0 v := by
        simp [upsert, h1]
      rw [hup]
      by_cases h : k = k1
      · have hk0 : ¬ k = k0 := by rw [h]; exact h1
        simp [alookup, h, hk0, h1]
      · simp [alookup, h, ih]

/-- Lookup into the map built by folding Go map assignments over a record
list: the binding is the last record of the list carrying the key, and
otherwise the initial map decides. -/
theorem lookup_foldl_upsert (l : List DNSRecord)
    (m : List (String × DNSRecord)) (id : String) :
    alookup (l.foldl (fun m r => upsert m r.recordId r) m) id
      = (l.reverse.find? (fun r => r.recordId == id)).or (alookup m id) := by
  induction l generalizing m with
  | nil => simp
  | cons x xs ih =>
    simp only [List.foldl_cons, List.reverse_cons]
    rw [ih, List.find?_append, alookup_upsert]
    cases hfind : xs.reverse.find? (fun r => r.recordId == id) with
    | some y => simp
    | none =>
      by_cases h : id = x.recordId
      · simp [List.find?, h]
      · have : (x.recordId == id) = false := by
          simp
          exact fun hcon => absurd hcon.symm h
        simp [List.find?, this, h]

/-- Claim C10.  Snapshot filtering: the remote snapshot binds an identifier
exactly to the last fetched record with that identifier among records of a
supported kind (A or CNAME) with active status ENABLE, all other records
being excluded; a pass over any fetched list with a healthy fetch and read
reports no zone error, so exclusion is silent. -/
theorem claim_C10_snapshot_filtering (dnsRecords : List DNSRecord)
    (id : String) (domainID projectID : String) (now : Int)
    (genId : Nat → String) (iOk uOk dOk : String → Bool)
    (db : List AssetSubDomain) (nextId : Nat) :
    alookup (buildRemoteSnapshot dnsRecords) id
      = ((dnsRecords.filter isValidRecord).reverse.find?
          (fun r => r.recordId == id))
    ∧ (∀ r : DNSRecord, isValidRecord r
        = ((r.type == "A" || r.type == "CNAME") && r.status == "ENABLE"))
    ∧ (incrementalSyncDomain (.ok dnsRecords) none domainID projectID now
        genId iOk uOk dOk db nextId).err = none := by
  refine ⟨?_, fun _ => rfl, rfl⟩
  unfold buildRemoteSnapshot
  rw [lookup_foldl_upsert]
  simp [alookup]

/-- The first reconciliation loop counts exactly the create operations whose
insert statement succeeds. -/
theorem foldl_step1_added (domainID projectID : String) (now : Int)
    (genId : Nat → String) (localRecords : List (String × AssetSubDomain))
    (iOk uOk : String → Bool) (l : List (String × DNSRecord))
    (st : PassState) :
    (l.foldl (step1 domainID projectID now genId localRecords iOk uOk) st).added
      = st.added + l.countP (createCounted localRecords iOk) := by
  induction l generalizing st with
  | nil => simp
  | cons p rest ih =>
    simp only [List.foldl_cons, List.countP_cons]
    rw [ih]
    unfold step1 createCounted
    cases h : alookup localRecords p.1 with
    | none =>
      by_cases hi : iOk p.1 <;> simp [h, hi] <;> omega
    | some localRecord =>
      by_cases hu : NeedUpdate p.2 localRecord <;>
        by_cases hk : uOk p.1 <;> simp [h, hu, hk]

/-- The first reconciliation loop counts exactly the update operations whose
update statement succeeds. -/
theorem foldl_step1_updated (domainID projectID : String) (now : Int)
    (genId : Nat → String) (localRecords : List (String × AssetSubDomain))
    (iOk uOk : String → Bool) (l : List (String × DNSRecord))
    (st : PassState) :
    (l.foldl (step1 domainID projectID now genId localRecords iOk uOk) st).updated
      = st.updated + l.countP (updateCounted localRecords uOk) := by
  induction l generalizing st with
  | nil => simp
  | cons p rest ih =>
    simp only [List.foldl_cons, List.countP_cons]
    rw [ih]
    unfold step1 updateCounted
    cases h : alookup localRecords p.1 with
    | none =>
      by_cases hi : iOk p.1 <;> simp [h, hi]
    | some localRecord =>
      by_cases hu : NeedUpdate p.2 localRecord <;>
        by_cases hk : uOk p.1 <;> simp [h, hu, hk] <;> omega

/-- The first reconciliation loop never counts a deletion. -/
theorem foldl_step1_deleted (domainID projectID : String) (now : Int)
    (genId : Nat → String) (localRecords : List (String × AssetSubDomain))
    (iOk uOk : String → Bool) (l : List (String × DNSRecord))
    (st : PassState) :
    (l.foldl (step1 domainID projectID now genId localRecords iOk uOk) st).deleted
      = st.deleted := by
  induction l generalizing st with
  | nil => rfl
  | cons p rest ih =>
    simp only [List.foldl_cons]
    rw [ih]
    unfold step1
    cases h : alookup localRecords p.1 with
    | none => by_cases hi : iOk p.1 <;> simp [h, hi]
    | some localRecord =>
      by_cases hu : NeedUpdate p.2 localRecord <;>
        by_cases hk : uOk p.1 <;> simp [h, hu, hk]

/-- The second reconciliation loop counts exactly the delete operations whose
delete statement succeeds, and leaves the other two counts alone. -/
theorem foldl_step2_counts (aliyunRecords : List (String × DNSRecord))
    (dOk : String → Bool) (l : List (String × AssetSubDomain))
    (st : PassState) :
    (l.foldl (step2 aliyunRecords dOk) st).deleted
        = st.deleted + l.countP (deleteCounted aliyunRecords dOk)
    ∧ (l.foldl (step2 aliyunRecords dOk) st).added = st.added
    ∧ (l.foldl (step2 aliyunRecords dOk) st).updated = st.updated := by
  induction l generalizing st with
  | nil => simp
  | cons p rest ih =>
    simp only [List.foldl_cons, List.countP_cons]
    obtain ⟨h1, h2, h3⟩ := ih (step2 aliyunRecords dOk st p)
    refine ⟨?_, ?_, ?_⟩
    · rw [h1]
      unfold step2 deleteCounted
      cases h : alookup aliyunRecords p.1 with
      | none => by_cases hd : dOk p.1 <;> simp [h, hd] <;> omega
      | some r => simp [h]
    · rw [h2]
      unfold step2
      cases h : alookup aliyunRecords p.1 with
      | none => by_cases hd : dOk p.1 <;> simp [h, hd]
      | some r => simp [h]
    · rw [h3]
      unfold step2
      cases h : alookup aliyunRecords p.1 with
      | none => by_cases hd : dOk p.1 <;> simp [h, hd]
      | some r => simp [h]

/-- Claim C6.  Record level failure isolation: with a healthy fetch and read
the zone result is success, and each of the three counters counts exactly
the operations of its diff set whose own write succeeded, independently of
failures among the other records, so a failed write is not counted and does
not stop the rest of the pass. -/
theorem claim_C6_record_failure_isolation (dnsRecords : List DNSRecord)
    (domainID projectID : String) (now : Int) (genId : Nat → String)
    (iOk uOk dOk : String → Bool) (db : List AssetSubDomain) (nextId : Nat) :
    (incrementalSyncDomain (.ok dnsRecords) none domainID projectID now genId
        iOk uOk dOk db nextId).err = none
    ∧ (incrementalSyncDomain (.ok dnsRecords) none domainID projectID now genId
        iOk uOk dOk db nextId).added
      = (buildRemoteSnapshot dnsRecords).countP
          (createCounted (GetLocalRecords db domainID) iOk)
    ∧ (incrementalSyncDomain (.ok dnsRecords) none domainID projectID now genId
        iOk uOk dOk db nextId).updated
      = (buildRemoteSnapshot dnsRecords).countP
          (updateCounted (GetLocalRecords db domainID) uOk)
    ∧ (incrementalSyncDomain (.ok dnsRecords) none domainID projectID now genId
        iOk uOk dOk db nextId).deleted
      = (GetLocalRecords db domainID).countP
          (deleteCounted (buildRemoteSnapshot dnsRecords) dOk) := by
  refine ⟨rfl, ?_, ?_, ?_⟩ <;>
    simp only [incrementalSyncDomain]
  · rw [(foldl_step2_counts _ _ _ _).2.1, foldl_step1_added]
    simp
  · rw [(foldl_step2_counts _ _ _ _).2.2, foldl_step1_updated]
    simp
  · rw [(foldl_step2_counts _ _ _ _).1, foldl_step1_deleted]
    simp

/-- Claim C9 counterexample.  The authority reports a total of 250 but holds
only 5 records: page 1 already comes back short (3 of the requested 100)
with the accumulated count still below the reported total, yet the loop
requests pages 2 and 3 afterwards, so the loop does not stop as soon as a
page returns fewer records than the requested page size. -/
theorem claim_C9_counterexample :
    (GetDomainRecords exPages 10).map (fun r => r.2) = some [1, 2, 3]
    ∧ (exPages 1).records.length < 100
    ∧ (((exPages 1).records.length : Int) < (exPages 1).totalCount) := by
  refine ⟨?_, by decide, by decide⟩
  decide

/-- Claim C9 amended.  When every response reports the same total T, the
loop terminates: any fuel exceeding the page bound T tdiv pageSize plus one,
counted from the current page number, suffices, and the loop stops once the
accumulated count reaches the reported total or once the incremented page
number exceeds that bound. -/
theorem claim_C9_amended (pages : Nat → PageResponse) (T : Int)
    (hT : ∀ n, (pages n).totalCount = T) (fuel pageNumber : Nat)
    (hfuel : 0 < fuel)
    (hbound : T.tdiv pageSize + 1 - (pageNumber : Int) < (fuel : Int))
    (acc : List DNSRecord) (req : List Nat) :
    (GetDomainRecordsLoop pages fuel pageNumber acc req).isSome := by
  induction fuel generalizing pageNumber acc req with
  | zero => exact absurd hfuel (lt_irrefl 0)
  | succ fuel ih =>
    rw [GetDomainRecordsLoop]
    split
    · rfl
    · split
      · rfl
      · rename_i hlen hpage
        have hle : ((pageNumber : Int)) + 1 ≤ (pages pageNumber).totalCount.tdiv pageSize + 1 :=
          le_of_not_lt hpage
        rw [hT] at hle
        have hfuel0 : 0 < fuel := by
          rcases Nat.eq_zero_or_pos fuel with h0 | h0
          · subst h0
            exfalso
            have : T.tdiv pageSize + 1 - (pageNumber : Int) < 1 := by
              exact_mod_cast hbound
            omega
          · exact h0
        apply ih
        · exact hfuel0
        · have hpn : ((pageNumber + 1 : Nat) : Int) = (pageNumber : Int) + 1 := by
            push_cast
            ring
          rw [hpn]
          have hcast : ((fuel + 1 : Nat) : Int) = (fuel : Int) + 1 := by
            push_cast
            ring
          rw [hcast] at hbound
          omega

/-- Claim C9 amended witness: the counterexample authority reports the
constant total 250, and fuel 10 starting from page 1 is enough for the loop
to return. -/
theorem claim_C9_amended_witness :
    (GetDomainRecordsLoop exPages 10 1 [] []).isSome :=
  claim_C9_amended exPages 250
    (fun n => by
      by_cases h1 : n = 1
      · simp [exPages, h1]
      · by_cases h2 : n = 2
        · simp [exPages, h1, h2]
        · simp [exPages, h1, h2])
    10 1 (by decide) (by decide) [] []

/-- A successful map lookup comes from a binding of the list. -/
theorem mem_of_alookup_eq_some {α : Type} (m : List (String × α)) (k : String)
    (v : α) (h : alookup m k = some v) : (k, v) ∈ m := by
  induction m with
  | nil => cases h
  | cons p rest ih =>
    obtain ⟨k0, v0⟩ := p
    unfold alookup at h
    by_cases hk : k = k0
    · rw [if_pos hk] at h
      injection h with hv
      subst hv
      subst hk
      exact List.mem_cons_self _ _
    · rw [if_neg hk] at h
      exact List.mem_cons_of_mem _ (ih h)

/-- Membership after a Go style map assignment. -/
theorem mem_upsert {α : Type} (m : List (String × α)) (k : String) (v : α)
    (q : String × α) (h : q ∈ upsert m k v) : q = (k, v) ∨ q ∈ m := by
  induction m with
  | nil =>
    simp only [upsert, List.mem_singleton] at h
    exact Or.inl h
  | cons p rest ih =>
    obtain ⟨k0, v0⟩ := p
    unfold upsert at h
    by_cases hk : k0 = k
    · rw [if_pos hk] at h
      rcases List.mem_cons.mp h with h1 | h1
      · exact Or.inl h1
      · exact Or.inr (List.mem_cons_of_mem _ h1)
    · rw [if_neg hk] at h
      rcases List.mem_cons.mp h with h1 | h1
      · exact Or.inr (h1 ▸ List.mem_cons_self _ _)
      · rcases ih h1 with h2 | h2
        · exact Or.inl h2
        · exact Or.inr (List.mem_cons_of_mem _ h2)

/-- Auxiliary characterization of the local snapshot fold: every binding
either comes from the initial map or from a row of the table that passed
the three selection conditions. -/
theorem getLocalRecords_fold_mem (dID : String) (rows : List AssetSubDomain) :
    ∀ (m : List (String × AssetSubDomain)) (q : String × AssetSubDomain),
      q ∈ rows.foldl
        (fun m row =>
          if row.domainID = dID ∧ row.source = "Aliyun-DNS-Sync" then
            match row.aliyunRecordID with
            | some rid => upsert m rid row
            | none => m
          else m) m →
      q ∈ m ∨ (q.2 ∈ rows ∧ q.2.domainID = dID
        ∧ q.2.source = "Aliyun-DNS-Sync" ∧ q.2.aliyunRecordID = some q.1) := by
  induction rows with
  | nil =>
    intro m q h
    exact Or.inl h
  | cons row rest ih =>
    intro m q h
    rw [List.foldl_cons] at h
    rcases ih _ q h with h1 | h1
    · by_cases hc : row.domainID = dID ∧ row.source = "Aliyun-DNS-Sync"
      · rw [if_pos hc] at h1
        cases ha : row.aliyunRecordID with
        | some rid =>
          rw [ha] at h1
          rcases mem_upsert m rid row q h1 with h2 | h2
          · subst h2
            exact Or.inr ⟨List.mem_cons_self _ _, hc.1, hc.2, ha⟩
          · exact Or.inl h2
        | none =>
          rw [ha] at h1
          exact Or.inl h1
      · rw [if_neg hc] at h1
        exact Or.inl h1
    · exact Or.inr ⟨List.mem_cons_of_mem _ h1.1, h1.2⟩

/-- Every entry of the local snapshot is a table row carrying the zone
identifier, the provenance tag and the keying back-reference. -/
theorem getLocalRecords_mem (rows : List AssetSubDomain) (dID : String)
    (q : String × AssetSubDomain) (h : q ∈ GetLocalRecords rows dID) :
    q.2 ∈ rows ∧ q.2.domainID = dID ∧ q.2.source = "Aliyun-DNS-Sync"
      ∧ q.2.aliyunRecordID = some q.1 := by
  unfold GetLocalRecords at h
  rcases getLocalRecords_fold_mem dID rows [] q h with h0 | h1
  · cases h0
  · exact h1

/-- A row carrying the provenance tag and the zone identifier is not
foreign. -/
theorem foreignRow_false_of_owned (dID : String) (row : AssetSubDomain)
    (h1 : row.domainID = dID) (h2 : row.source = "Aliyun-DNS-Sync") :
    foreignRow dID row = false := by
  simp [foreignRow, h1, h2]

/-- Mapping a function that fixes every selected element and never changes
selection does not change the filtered list. -/
theorem filter_map_invariant {α : Type} (p : α → Bool) (f : α → α)
    (l : List α)
    (h : ∀ x ∈ l, (p x = true → f x = x) ∧ p (f x) = p x) :
    (l.map f).filter p = l.filter p := by
  induction l with
  | nil => rfl
  | cons x rest ih =>
    obtain ⟨h1, h2⟩ := h x (List.mem_cons_self _ _)
    have hrest := fun y hy => h y (List.mem_cons_of_mem _ hy)
    simp only [List.map_cons]
    cases hp : p x
    · rw [List.filter_cons_of_neg, List.filter_cons_of_neg, ih hrest]
      · simp [hp]
      · simp [h2, hp]
    · rw [List.filter_cons_of_pos, List.filter_cons_of_pos, ih hrest, h1 hp]
      · simp [hp]
      · simp [h2, hp]

/-- Removing only unselected elements does not change the filtered list. -/
theorem filter_filter_invariant {α : Type} (p q : α → Bool) (l : List α)
    (h : ∀ x ∈ l, p x = true → q x = true) :
    (l.filter q).filter p = l.filter p := by
  induction l with
  | nil => rfl
  | cons x rest ih =>
    have hrest := fun y hy => h y (List.mem_cons_of_mem _ hy)
    cases hq : q x
    · rw [List.filter_cons_of_neg, List.filter_cons_of_neg, ih hrest]
      · cases hp : p x
        · simp [hp]
        · rw [h x (List.mem_cons_self _ _) hp] at hq
          cases hq
      · simp [hq]
    · rw [List.filter_cons_of_pos]
      · cases hp : p x
        · rw [List.filter_cons_of_neg, List.filter_cons_of_neg, ih hrest] <;>
            simp [hp]
        · rw [List.filter_cons_of_pos, List.filter_cons_of_pos, ih hrest] <;>
            simp [hp]
      · simp [hq]

/-- Rows built by the create path are never foreign: the conversion stamps
the provenance tag and the zone identifier of the pass. -/
theorem foreignRow_convert (dID projectID : String) (r : DNSRecord)
    (now : Int) (newId : String) :
    foreignRow dID { ConvertToAssetSubDomain r dID projectID now with
      id := newId } = false := by
  simp [foreignRow, ConvertToAssetSubDomain]

/-- With pairwise distinct primary keys, two table rows sharing a key are
the same row. -/
theorem eq_of_mem_pairwise_id (db : List AssetSubDomain)
    (hU : db.Pairwise fun a b => a.id ≠ b.id)
    {x y : AssetSubDomain} (hx : x ∈ db) (hy : y ∈ db)
    (hid : x.id = y.id) : x = y := by
  by_contra hne
  have hsym : Symmetric (fun a b : AssetSubDomain => a.id ≠ b.id) :=
    fun _ _ h hc => h hc.symm
  exact (List.Pairwise.forall hsym hU hx hy hne) hid

/-- In any table state whose foreign part agrees with the initial table, no
foreign row can share the primary key of a selected snapshot row. -/
theorem foreign_ne_of_inv (db db1 : List AssetSubDomain) (dID : String)
    (hU : db.Pairwise fun a b => a.id ≠ b.id)
    (hinv : db1.filter (foreignRow dID) = db.filter (foreignRow dID))
    (localRecord : AssetSubDomain) (hmem : localRecord ∈ db)
    (hdom : localRecord.domainID = dID)
    (hsrc : localRecord.source = "Aliyun-DNS-Sync") :
    ∀ row ∈ db1, foreignRow dID row = true → ¬ row.id = localRecord.id := by
  intro row hrow hfr hid
  have h1 : row ∈ db1.filter (foreignRow dID) :=
    List.mem_filter.mpr ⟨hrow, hfr⟩
  rw [hinv] at h1
  have h2 : row ∈ db := (List.mem_filter.mp h1).1
  have heq := eq_of_mem_pairwise_id db hU h2 hmem hid
  rw [heq, foreignRow_false_of_owned dID localRecord hdom hsrc] at hfr
  cases hfr

/-- The add and update loop preserves the foreign part of the table. -/
theorem foldl_step1_filter (domainID projectID : String) (now : Int)
    (genId : Nat → String) (iOk uOk : String → Bool)
    (db : List AssetSubDomain)
    (hU : db.Pairwise fun a b => a.id ≠ b.id) :
    ∀ (l : List (String × DNSRecord)) (st : PassState),
      st.db.filter (foreignRow domainID) = db.filter (foreignRow domainID) →
      ((l.foldl
          (step1 domainID projectID now genId (GetLocalRecords db domainID)
            iOk uOk) st).db).filter (foreignRow domainID)
        = db.filter (foreignRow domainID) := by
  intro l
  induction l with
  | nil =>
    intro st h
    exact h
  | cons p rest ih =>
    intro st h
    rw [List.foldl_cons]
    apply ih
    cases hl : alookup (GetLocalRecords db domainID) p.1 with
    | some localRecord =>
      have hmem0 : (p.1, localRecord) ∈ GetLocalRecords db domainID :=
        mem_of_alookup_eq_some _ _ _ hl
      have hprops := getLocalRecords_mem db domainID (p.1, localRecord) hmem0
      simp only [step1, hl]
      by_cases hu : NeedUpdate p.2 localRecord
      · by_cases hk : uOk p.1
        · rw [if_pos hu, if_pos hk]
          show (UpdateRecord st.db localRecord.id p.2 now).filter
              (foreignRow domainID) = db.filter (foreignRow domainID)
          have hfresh := foreign_ne_of_inv db st.db domainID hU h localRecord
            hprops.1 hprops.2.1 hprops.2.2.1
          rw [← h]
          simp only [UpdateRecord]
          apply filter_map_invariant
          intro x hx
          constructor
          · intro hpx
            rw [if_neg (hfresh x hx hpx)]
          · by_cases hid : x.id = localRecord.id
            · rw [if_pos hid]
              rfl
            · rw [if_neg hid]
        · rw [if_pos hu, if_neg hk]
          exact h
      · rw [if_neg hu]
        exact h
    | none =>
      simp only [step1, hl]
      by_cases hi : iOk p.1
      · rw [if_pos hi]
        show (InsertRecord st.db
            (ConvertToAssetSubDomain p.2 domainID projectID now)
            (genId st.nextId)).filter (foreignRow domainID)
          = db.filter (foreignRow domainID)
        unfold InsertRecord
        rw [List.filter_append]
        rw [List.filter_cons_of_neg]
        · rw [List.filter_nil, List.append_nil]
          exact h
        · simp [foreignRow_convert]
      · rw [if_neg hi]
        exact h

/-- The delete loop preserves the foreign part of the table, provided every
processed entry comes from the local snapshot of the zone. -/
theorem foldl_step2_filter (domainID : String) (dOk : String → Bool)
    (aliyunRecords : List (String × DNSRecord)) (db : List AssetSubDomain)
    (hU : db.Pairwise fun a b => a.id ≠ b.id) :
    ∀ (l : List (String × AssetSubDomain)),
      (∀ q ∈ l, q ∈ GetLocalRecords db domainID) →
      ∀ (st : PassState),
        st.db.filter (foreignRow domainID) = db.filter (foreignRow domainID) →
        ((l.foldl (step2 aliyunRecords dOk) st).db).filter (foreignRow domainID)
          = db.filter (foreignRow domainID) := by
  intro l
  induction l with
  | nil =>
    intro _ st h
    exact h
  | cons p rest ih =>
    intro hsub st h
    rw [List.foldl_cons]
    apply ih fun q hq => hsub q (List.mem_cons_of_mem _ hq)
    cases hl : alookup aliyunRecords p.1 with
    | some r =>
      simp only [step2, hl]
      exact h
    | none =>
      simp only [step2, hl]
      by_cases hd : dOk p.1
      · rw [if_pos hd]
        show (DeleteRecord st.db p.2.id).filter (foreignRow domainID)
          = db.filter (foreignRow domainID)
        have hq := getLocalRecords_mem db domainID p
          (hsub p (List.mem_cons_self _ _))
        have hfresh := foreign_ne_of_inv db st.db domainID hU h p.2
          hq.1 hq.2.1 hq.2.2.1
        unfold DeleteRecord
        rw [← h]
        apply filter_filter_invariant
        intro x hx hpx
        exact bne_iff_ne.mpr (hfresh x hx hpx)
      · rw [if_neg hd]
        exact h

/-- Claim C7.  Isolation frame: under pairwise distinct primary keys, a
reconciliation pass leaves the foreign part of the table, namely every row
missing the provenance tag or belonging to another zone identifier, exactly
as it was, whatever the fetch and read outcomes and whatever writes fail. -/
theorem claim_C7_isolation (fetch : Except String (List DNSRecord))
    (readErr : Option String) (domainID projectID : String) (now : Int)
    (genId : Nat → String) (iOk uOk dOk : String → Bool)
    (db : List AssetSubDomain) (nextId : Nat)
    (hU : db.Pairwise fun a b => a.id ≠ b.id) :
    ((incrementalSyncDomain fetch readErr domainID projectID now genId
        iOk uOk dOk db nextId).db).filter (foreignRow domainID)
      = db.filter (foreignRow domainID) := by
  cases fetch with
  | error e => rfl
  | ok dnsRecords =>
    cases readErr with
    | some e => rfl
    | none =>
      simp only [incrementalSyncDomain]
      apply foldl_step2_filter domainID dOk (buildRemoteSnapshot dnsRecords)
        db hU (GetLocalRecords db domainID) (fun q hq => hq)
      apply foldl_step1_filter domainID projectID now genId iOk uOk db hU
      rfl

/-- Claim C7 witness: a concrete pass over a table holding one manual row of
another zone leaves that row untouched. -/
theorem claim_C7_isolation_witness :
    ((incrementalSyncDomain (.ok [exRecord]) none "dom1" "proj1" 0 exGenId
        (fun _ => true) (fun _ => true) (fun _ => true)
        [exForeignRow] 0).db).filter (foreignRow "dom1")
      = [exForeignRow].filter (foreignRow "dom1") :=
  claim_C7_isolation (.ok [exRecord]) none "dom1" "proj1" 0 exGenId
    (fun _ => true) (fun _ => true) (fun _ => true) [exForeignRow] 0
    (by simp)

end DnsSync
